import Mathlib

/-
Verification of the planning pipeline of `ompl_planner_base`
(src/ompl_planner_base.cpp), a ROS global planner plugin that bounds a 2D
pose space from a costmap, checks start/goal validity via a footprint-cost
oracle, dispatches to one of nine OMPL sampling planners, and densifies the
resulting path.

Real arithmetic of the C++ `double`s is modelled by `ℝ`; the opaque
costmap/world-model cost query is an abstract function `Pose2D → ℝ`
(negative means undefined, as documented in the ROS API); the OMPL solver
itself is a black box whose outcome (`solved`, the simplified solution
path) is part of the environment record.
-/

open Classical

/-- A planar pose (`geometry_msgs::Pose2D`): position and heading in radians. -/
structure Pose2D where
  x : ℝ
  y : ℝ
  theta : ℝ

/-- Model of `angles::normalize_angle_positive`: in exact arithmetic
`fmod(fmod(a, 2pi) + 2pi, 2pi)` is the representative of `a` modulo `2*pi`
lying in `[0, 2*pi)`, i.e. `a - 2*pi*floor(a/(2*pi))`. -/
noncomputable def normalizeAnglePos (θ : ℝ) : ℝ :=
  θ - 2 * Real.pi * ⌊θ / (2 * Real.pi)⌋

/-- Model of `angles::normalize_angle`: shift the positive normalization back
into the canonical range `(-pi, pi]`. -/
noncomputable def normalizeAngle (θ : ℝ) : ℝ :=
  if normalizeAnglePos θ > Real.pi then normalizeAnglePos θ - 2 * Real.pi
  else normalizeAnglePos θ

/-- Planar Euclidean distance between two frames, ignoring heading: the
`frame_distance = sqrt(diff_x^2 + diff_y^2)` computed in
`OMPLPlannerBase::interpolatePathPose2D`. -/
noncomputable def pdist (a b : Pose2D) : ℝ :=
  Real.sqrt ((b.x - a.x) * (b.x - a.x) + (b.y - a.y) * (b.y - a.y))

/-- One interpolated frame (`temp_frame` at loop index `j` in
`interpolatePathPose2D`): the last emitted frame advanced by `j` linear
sub-steps, with the heading renormalized. -/
noncomputable def interpFrame (last : Pose2D) (sx sy sθ : ℝ) (j : ℕ) : Pose2D :=
  ⟨last.x + j * sx, last.y + j * sy, normalizeAngle (last.theta + j * sθ)⟩

/-- `num_insertions = ceil(frame_distance / max_dist_between_pathframes)`
from `interpolatePathPose2D` (a whole `double` in the code, hence exactly an
integer). -/
noncomputable def numInsertions (m : ℝ) (last curr : Pose2D) : ℤ :=
  ⌈pdist last curr / m⌉

/-- The block of frames `interpolatePathPose2D` inserts between the last
emitted frame and the next input frame: empty when the gap is within
`max_dist_between_pathframes`, otherwise `num_insertions` equally spaced
frames (the interval is split into `num_insertions + 1` sub-steps). -/
noncomputable def insertedFrames (m : ℝ) (last curr : Pose2D) : List Pose2D :=
  if pdist last curr > m then
    (List.range (numInsertions m last curr).toNat).map fun j =>
      interpFrame last ((curr.x - last.x) / ((numInsertions m last curr : ℝ) + 1))
        ((curr.y - last.y) / ((numInsertions m last curr : ℝ) + 1))
        (normalizeAngle (curr.theta - last.theta) / ((numInsertions m last curr : ℝ) + 1))
        (j + 1)
  else []

/-- The main loop of `interpolatePathPose2D`: walk the remaining input
frames, inserting interpolated frames before each one when needed.  The
first argument is the last frame already emitted into `ipoPath` (always the
previous input frame, since each input frame is pushed after its inserted
block). -/
noncomputable def densifyFrom (m : ℝ) : Pose2D → List Pose2D → List Pose2D
  | _, [] => []
  | last, curr :: rest => insertedFrames m last curr ++ curr :: densifyFrom m curr rest

/-- `OMPLPlannerBase::interpolatePathPose2D`: fails (returns `false` in the
code, `none` here) when the path has fewer than 2 frames; otherwise emits the
first frame unchanged and densifies the rest. -/
noncomputable def interpolatePathPose2D (m : ℝ) (path : List Pose2D) : Option (List Pose2D) :=
  if path.length < 2 then none
  else
    match path with
    | [] => none
    | p0 :: rest => some (p0 :: densifyFrom m p0 rest)

/- Basic facts about `normalizeAngle`. -/

lemma normalizeAnglePos_eq_fract (θ : ℝ) :
    normalizeAnglePos θ = 2 * Real.pi * Int.fract (θ / (2 * Real.pi)) := by
  have h2π : (2 : ℝ) * Real.pi ≠ 0 := by positivity
  rw [normalizeAnglePos, Int.fract]
  field_simp

lemma normalizeAnglePos_nonneg (θ : ℝ) : 0 ≤ normalizeAnglePos θ := by
  rw [normalizeAnglePos_eq_fract]
  have h2π : (0 : ℝ) ≤ 2 * Real.pi := by positivity
  exact mul_nonneg h2π (Int.fract_nonneg _)

lemma normalizeAnglePos_lt (θ : ℝ) : normalizeAnglePos θ < 2 * Real.pi := by
  rw [normalizeAnglePos_eq_fract]
  have h2π : (0 : ℝ) < 2 * Real.pi := by positivity
  calc 2 * Real.pi * Int.fract (θ / (2 * Real.pi)) < 2 * Real.pi * 1 :=
        (mul_lt_mul_left h2π).2 (Int.fract_lt_one _)
    _ = 2 * Real.pi := mul_one _

/-- `normalizeAngle` always lands in the canonical range `(-pi, pi]`. -/
lemma normalizeAngle_mem (θ : ℝ) :
    -Real.pi < normalizeAngle θ ∧ normalizeAngle θ ≤ Real.pi := by
  have hπ := Real.pi_pos
  have h0 := normalizeAnglePos_nonneg θ
  have h2 := normalizeAnglePos_lt θ
  rw [normalizeAngle]
  split_ifs with h
  · constructor <;> linarith
  · push_neg at h
    constructor <;> linarith

lemma normalizeAnglePos_zero : normalizeAnglePos 0 = 0 := by
  simp [normalizeAnglePos]

lemma normalizeAngle_zero : normalizeAngle 0 = 0 := by
  have hπ := Real.pi_pos
  rw [normalizeAngle, normalizeAnglePos_zero, if_neg (by linarith)]

/- Structural facts about densification. -/

lemma densifyFrom_nil (m : ℝ) (last : Pose2D) : densifyFrom m last [] = [] := rfl

lemma densifyFrom_cons (m : ℝ) (last curr : Pose2D) (rest : List Pose2D) :
    densifyFrom m last (curr :: rest) =
      insertedFrames m last curr ++ curr :: densifyFrom m curr rest := rfl

lemma densifyFrom_ne_nil (m : ℝ) (last curr : Pose2D) (rest : List Pose2D) :
    densifyFrom m last (curr :: rest) ≠ [] := by
  rw [densifyFrom_cons]
  simp

lemma getLast?_append_cons {α : Type} (l₁ : List α) (a : α) (l₂ : List α) :
    (l₁ ++ a :: l₂).getLast? = (a :: l₂).getLast? := by
  induction l₁ with
  | nil => rfl
  | cons x xs ih =>
    rw [List.cons_append]
    cases h : xs ++ a :: l₂ with
    | nil => exact absurd h (by simp)
    | cons y ys => rw [List.getLast?_cons_cons, ← h, ih]

lemma densifyFrom_getLast? (m : ℝ) :
    ∀ (l : List Pose2D) (last : Pose2D), (densifyFrom m last l).getLast? = l.getLast?
  | [], _ => rfl
  | curr :: rest, last => by
    rw [densifyFrom_cons, getLast?_append_cons]
    cases rest with
    | nil => rfl
    | cons r rs =>
      rw [List.getLast?_cons_cons]
      cases h : densifyFrom m curr (r :: rs) with
      | nil => exact absurd h (densifyFrom_ne_nil m curr r rs)
      | cons d ds =>
        rw [List.getLast?_cons_cons, ← h, densifyFrom_getLast? m (r :: rs) curr]

lemma densifyFrom_length (m : ℝ) :
    ∀ (l : List Pose2D) (last : Pose2D), l.length ≤ (densifyFrom m last l).length
  | [], _ => le_refl _
  | curr :: rest, last => by
    rw [densifyFrom_cons]
    have ih := densifyFrom_length m rest curr
    simp only [List.length_append, List.length_cons]
    omega

/-- If every gap from the previous emitted frame is within `m`, no frames are
inserted. -/
lemma insertedFrames_of_le (m : ℝ) (last curr : Pose2D) (h : pdist last curr ≤ m) :
    insertedFrames m last curr = [] := by
  rw [insertedFrames, if_neg (not_lt.2 h)]

lemma densifyFrom_of_dense (m : ℝ) :
    ∀ (l : List Pose2D) (last : Pose2D),
      List.Chain' (fun a b => pdist a b ≤ m) (last :: l) → densifyFrom m last l = l
  | [], _, _ => rfl
  | curr :: rest, last, h => by
    rw [List.chain'_cons] at h
    rw [densifyFrom_cons, insertedFrames_of_le m last curr h.1,
      densifyFrom_of_dense m rest curr h.2, List.nil_append]

/- The chain bound on inserted frames. -/

lemma pdist_eq_sqrt (a b : Pose2D) :
    pdist a b = Real.sqrt ((b.x - a.x) * (b.x - a.x) + (b.y - a.y) * (b.y - a.y)) := rfl

lemma chain'_map_range {α : Type} (R : α → α → Prop) (f : ℕ → α) (n : ℕ)
    (h : ∀ i, R (f i) (f (i + 1))) : List.Chain' R ((List.range n).map f) := by
  rw [List.chain'_map]
  cases n with
  | zero => simp
  | succ k => exact (List.chain'_range_succ (fun a b => R (f a) (f b)) k).2 fun i _ => h i

/-- The length of one linear sub-step is at most `m` as soon as the full gap
is at most `m * c`. -/
lemma step_sqrt_le (m c : ℝ) (last curr : Pose2D) (hc : 0 < c)
    (hdc : pdist last curr ≤ m * c) :
    Real.sqrt (((curr.x - last.x) / c) * ((curr.x - last.x) / c) +
      ((curr.y - last.y) / c) * ((curr.y - last.y) / c)) ≤ m := by
  have harg : ((curr.x - last.x) / c) * ((curr.x - last.x) / c) +
      ((curr.y - last.y) / c) * ((curr.y - last.y) / c) =
      ((curr.x - last.x) * (curr.x - last.x) + (curr.y - last.y) * (curr.y - last.y)) / (c * c) := by
    field_simp
  rw [harg, Real.sqrt_div (add_nonneg (mul_self_nonneg _) (mul_self_nonneg _)) (c * c),
    Real.sqrt_mul_self hc.le, ← pdist_eq_sqrt]
  rw [div_le_iff hc]
  exact hdc

/-- A chain of equally spaced interpolated frames from `last` to `curr` has
all its links of planar length at most `m`, provided one sub-step is. -/
lemma chain'_affine_steps (m sx sy sθ : ℝ) (last curr : Pose2D) (N : ℕ)
    (hstep : Real.sqrt (sx * sx + sy * sy) ≤ m)
    (hx : curr.x = last.x + ((N : ℝ) + 1) * sx)
    (hy : curr.y = last.y + ((N : ℝ) + 1) * sy) :
    List.Chain' (fun a b => pdist a b ≤ m)
      ((last :: (List.range N).map fun j => interpFrame last sx sy sθ (j + 1)) ++ [curr]) := by
  set f : ℕ → Pose2D := fun j => interpFrame last sx sy sθ (j + 1) with hf
  cases N with
  | zero =>
    simp only [List.range_zero, List.map_nil, List.nil_append, List.cons_append]
    refine List.chain'_pair.2 ?_
    have harg : pdist last curr = Real.sqrt (sx * sx + sy * sy) := by
      rw [pdist_eq_sqrt, hx, hy]
      congr 1
      push_cast
      ring
    rw [harg]
    exact hstep
  | succ k =>
    have hl : ∀ j : ℕ, pdist (f j) (f (j + 1)) ≤ m := by
      intro j
      have harg : pdist (f j) (f (j + 1)) = Real.sqrt (sx * sx + sy * sy) := by
        simp only [hf, pdist_eq_sqrt, interpFrame]
        congr 1
        push_cast
        ring
      rw [harg]
      exact hstep
    have hl0 : pdist last (f 0) ≤ m := by
      have harg : pdist last (f 0) = Real.sqrt (sx * sx + sy * sy) := by
        simp only [hf, pdist_eq_sqrt, interpFrame]
        congr 1
        push_cast
        ring
      rw [harg]
      exact hstep
    have hlast : pdist (f k) curr ≤ m := by
      have harg : pdist (f k) curr = Real.sqrt (sx * sx + sy * sy) := by
        simp only [hf, pdist_eq_sqrt, interpFrame]
        rw [hx, hy]
        congr 1
        push_cast
        ring
      rw [harg]
      exact hstep
    have chainM : List.Chain' (fun a b => pdist a b ≤ m) ((List.range (k + 1)).map f) :=
      chain'_map_range _ f (k + 1) hl
    have hhead : ((List.range (k + 1)).map f).head? = some (f 0) := by
      rw [List.range_succ_eq_map]
      simp
    have chainB : List.Chain' (fun a b => pdist a b ≤ m) (last :: (List.range (k + 1)).map f) := by
      refine List.chain'_cons'.2 ⟨?_, chainM⟩
      intro y hy'
      rw [hhead, Option.mem_some_iff] at hy'
      rw [hy'] at hl0
      exact hl0
    have hgetLast : (last :: (List.range (k + 1)).map f).getLast? = some (f k) := by
      rw [List.range_succ, List.map_append, List.map_singleton, ← List.cons_append]
      exact List.getLast?_concat _
    refine chainB.append (List.chain'_singleton curr) ?_
    intro a ha b hb
    rw [hgetLast, Option.mem_some_iff] at ha
    simp only [List.head?_cons, Option.mem_some_iff] at hb
    rw [ha, hb] at hlast
    exact hlast

/-- The full block from the last emitted frame, through the inserted frames,
to the next input frame is a chain with planar gaps at most `m`. -/
lemma chain'_insertedFrames (m : ℝ) (hm : 0 < m) (last curr : Pose2D) :
    List.Chain' (fun a b => pdist a b ≤ m) ((last :: insertedFrames m last curr) ++ [curr]) := by
  by_cases h : pdist last curr > m
  · rw [insertedFrames, if_pos h]
    have h1dm : (1 : ℝ) < pdist last curr / m := (one_lt_div hm).2 h
    have hnum2 : (2 : ℤ) ≤ numInsertions m last curr := by
      have h1 : (1 : ℤ) < numInsertions m last curr := by
        rw [numInsertions]
        exact Int.lt_ceil.2 (by exact_mod_cast h1dm)
      omega
    have hNnum : ((numInsertions m last curr).toNat : ℤ) = numInsertions m last curr :=
      Int.toNat_of_nonneg (by omega)
    have hq2 : (2 : ℝ) ≤ ((numInsertions m last curr : ℤ) : ℝ) := by exact_mod_cast hnum2
    have hq0 : (0 : ℝ) < ((numInsertions m last curr : ℤ) : ℝ) + 1 := by linarith
    have hNcast : (((numInsertions m last curr).toNat : ℕ) : ℝ) =
        ((numInsertions m last curr : ℤ) : ℝ) := by exact_mod_cast hNnum
    have hceil : pdist last curr / m ≤ ((numInsertions m last curr : ℤ) : ℝ) := by
      rw [numInsertions]
      exact Int.le_ceil _
    have hdc : pdist last curr ≤ m * (((numInsertions m last curr : ℤ) : ℝ) + 1) := by
      rw [div_le_iff hm] at hceil
      nlinarith
    have hstep := step_sqrt_le m (((numInsertions m last curr : ℤ) : ℝ) + 1) last curr hq0 hdc
    have hx : curr.x = last.x + ((((numInsertions m last curr).toNat : ℕ) : ℝ) + 1) *
        ((curr.x - last.x) / (((numInsertions m last curr : ℤ) : ℝ) + 1)) := by
      rw [hNcast]
      field_simp
    have hy : curr.y = last.y + ((((numInsertions m last curr).toNat : ℕ) : ℝ) + 1) *
        ((curr.y - last.y) / (((numInsertions m last curr : ℤ) : ℝ) + 1)) := by
      rw [hNcast]
      field_simp
    exact chain'_affine_steps m _ _ _ last curr _ hstep hx hy
  · rw [insertedFrames, if_neg h]
    simp only [List.cons_append, List.nil_append]
    exact List.chain'_pair.2 (le_of_not_lt h)

/-- Every list emitted by the densification loop, together with the frame it
starts from, is a chain with planar gaps at most `m`. -/
lemma densifyFrom_chain (m : ℝ) (hm : 0 < m) :
    ∀ (l : List Pose2D) (last : Pose2D),
      List.Chain' (fun a b => pdist a b ≤ m) (last :: densifyFrom m last l)
  | [], _ => List.chain'_singleton _
  | curr :: rest, last => by
    have hpair := chain'_insertedFrames m hm last curr
    have htail := densifyFrom_chain m hm rest curr
    rw [densifyFrom_cons, ← List.cons_append]
    rw [List.chain'_append] at hpair ⊢
    refine ⟨hpair.1, htail, ?_⟩
    intro a ha b hb
    simp only [List.head?_cons, Option.mem_some_iff] at hb
    have hlink := hpair.2.2 a ha curr (by simp)
    rw [hb] at hlink
    exact hlink

/-- Claim C4: for every input path with at least 2 frames and every
max_spacing > 0, every pair of consecutive frames in the densified output is
at planar Euclidean distance (ignoring heading) at most max_spacing. -/
theorem C4_densified_spacing (m : ℝ) (path out : List Pose2D) (hm : 0 < m)
    (hlen : 2 ≤ path.length) (hout : interpolatePathPose2D m path = some out) :
    List.Chain' (fun a b => pdist a b ≤ m) out := by
  rw [interpolatePathPose2D.eq_def, if_neg (by omega)] at hout
  match path, hout with
  | [], hout => exact absurd hout (by simp)
  | p0 :: rest, hout =>
    rw [Option.some.injEq] at hout
    rw [← hout]
    exact densifyFrom_chain m hm rest p0

/-- Claim C5: for every input path with at least 2 frames, the densified
output preserves the first and last frames and is at least as long as the
input. -/
theorem C5_endpoints_length (m : ℝ) (path out : List Pose2D)
    (hlen : 2 ≤ path.length) (hout : interpolatePathPose2D m path = some out) :
    out.head? = path.head? ∧ out.getLast? = path.getLast? ∧ path.length ≤ out.length := by
  rw [interpolatePathPose2D.eq_def, if_neg (by omega)] at hout
  match path, hout with
  | [], hout => exact absurd hout (by simp)
  | p0 :: rest, hout =>
    rw [Option.some.injEq] at hout
    rw [← hout]
    refine ⟨rfl, ?_, ?_⟩
    · cases rest with
      | nil => rfl
      | cons r rs =>
        rw [List.getLast?_cons_cons]
        cases hD : densifyFrom m p0 (r :: rs) with
        | nil => exact absurd hD (densifyFrom_ne_nil m p0 r rs)
        | cons d ds =>
          rw [List.getLast?_cons_cons, ← hD, densifyFrom_getLast? m (r :: rs) p0]
    · have := densifyFrom_length m rest p0
      simp only [List.length_cons]
      omega

/-- Claim C6: densification is idempotent — if every consecutive pair of the
input is already within max_spacing, the densifier returns the input
unchanged. -/
theorem C6_idempotent (m : ℝ) (path : List Pose2D) (hlen : 2 ≤ path.length)
    (hdense : List.Chain' (fun a b => pdist a b ≤ m) path) :
    interpolatePathPose2D m path = some path := by
  rw [interpolatePathPose2D.eq_def, if_neg (by omega)]
  match path, hlen, hdense with
  | p0 :: rest, _, hdense =>
    rw [Option.some.injEq]
    rw [densifyFrom_of_dense m rest p0 hdense]

/- Headings produced by densification. -/

/-- Every frame the densifier inserts carries a renormalized heading. -/
lemma mem_insertedFrames_theta (m : ℝ) (last curr p : Pose2D)
    (hp : p ∈ insertedFrames m last curr) : ∃ a : ℝ, p.theta = normalizeAngle a := by
  rw [insertedFrames] at hp
  split_ifs at hp with h
  · rw [List.mem_map] at hp
    obtain ⟨j, _, hj⟩ := hp
    exact ⟨_, by rw [← hj]; rfl⟩
  · exact absurd hp (by simp)

lemma densifyFrom_theta (m : ℝ) :
    ∀ (l : List Pose2D) (last : Pose2D),
      (∀ p ∈ l, -Real.pi < p.theta ∧ p.theta ≤ Real.pi) →
      ∀ p ∈ densifyFrom m last l, -Real.pi < p.theta ∧ p.theta ≤ Real.pi
  | [], _, _, p, hp => by
    rw [densifyFrom_nil] at hp
    exact absurd hp (by simp)
  | curr :: rest, last, hin, p, hp => by
    rw [densifyFrom_cons, List.mem_append] at hp
    rcases hp with hp | hp
    · obtain ⟨a, ha⟩ := mem_insertedFrames_theta m last curr p hp
      rw [ha]
      exact normalizeAngle_mem a
    · rw [List.mem_cons] at hp
      rcases hp with hp | hp
      · rw [hp]
        exact hin curr (by simp)
      · exact densifyFrom_theta m rest curr (fun q hq => hin q (by simp [hq])) p hp

/-- Claim C9 (amended): if every heading of the input path lies in the
canonical range (-pi, pi], then so does every heading of the densified
output (inserted frames are renormalized; input frames pass through
unchanged). -/
theorem C9_headings_normalized (m : ℝ) (path out : List Pose2D)
    (hin : ∀ p ∈ path, -Real.pi < p.theta ∧ p.theta ≤ Real.pi)
    (hout : interpolatePathPose2D m path = some out) :
    ∀ p ∈ out, -Real.pi < p.theta ∧ p.theta ≤ Real.pi := by
  rw [interpolatePathPose2D.eq_def] at hout
  by_cases h : path.length < 2
  · rw [if_pos h] at hout
    exact absurd hout (by simp)
  · rw [if_neg h] at hout
    match path, hout with
    | [], hout => exact absurd hout (by simp)
    | p0 :: rest, hout =>
      rw [Option.some.injEq] at hout
      intro p hp
      rw [← hout, List.mem_cons] at hp
      rcases hp with hp | hp
      · rw [hp]
        exact hin p0 (by simp)
      · exact densifyFrom_theta m rest p0 (fun q hq => hin q (by simp [hq])) p hp

/- Concrete evaluation of the densifier on the spec's worked example:
frames (0,0,0) and (10,0,0) with max_spacing 3. -/

lemma pdist_ex1 : pdist ⟨0, 0, 0⟩ ⟨10, 0, 0⟩ = 10 := by
  rw [pdist_eq_sqrt]
  norm_num
  rw [show (100 : ℝ) = 10 ^ 2 by norm_num]
  exact Real.sqrt_sq (by norm_num)

lemma numInsertions_ex1 : numInsertions 3 ⟨0, 0, 0⟩ ⟨10, 0, 0⟩ = 4 := by
  rw [numInsertions, pdist_ex1, Int.ceil_eq_iff]
  norm_num

lemma insertedFrames_ex1 :
    insertedFrames 3 ⟨0, 0, 0⟩ ⟨10, 0, 0⟩ =
      [⟨2, 0, 0⟩, ⟨4, 0, 0⟩, ⟨6, 0, 0⟩, ⟨8, 0, 0⟩] := by
  rw [insertedFrames, if_pos (by rw [pdist_ex1]; norm_num), numInsertions_ex1]
  norm_num [interpFrame, normalizeAngle_zero]
  rw [show Int.toNat 4 = 4 from rfl]
  norm_num [List.range_succ, Pose2D.mk.injEq]

lemma densify_ex1 :
    interpolatePathPose2D 3 [⟨0, 0, 0⟩, ⟨10, 0, 0⟩] =
      some [⟨0, 0, 0⟩, ⟨2, 0, 0⟩, ⟨4, 0, 0⟩, ⟨6, 0, 0⟩, ⟨8, 0, 0⟩, ⟨10, 0, 0⟩] := by
  rw [interpolatePathPose2D.eq_def]
  norm_num
  rw [densifyFrom_cons, insertedFrames_ex1, densifyFrom_nil]
  simp

lemma pdist_self (p : Pose2D) : pdist p p = 0 := by
  rw [pdist_eq_sqrt]
  simp

lemma densify_ex2 :
    interpolatePathPose2D 1 [⟨0, 0, 4⟩, ⟨0, 0, 4⟩] = some [⟨0, 0, 4⟩, ⟨0, 0, 4⟩] := by
  rw [interpolatePathPose2D.eq_def]
  norm_num
  rw [densifyFrom_cons, insertedFrames_of_le 1 _ _ (by rw [pdist_self]; norm_num),
    densifyFrom_nil]
  simp

/-- Witness for C4 at the worked example: max_spacing 3 on the two-frame
path from (0,0,0) to (10,0,0). -/
theorem C4_witness :
    (0 : ℝ) < 3 ∧ 2 ≤ ([⟨0, 0, 0⟩, ⟨10, 0, 0⟩] : List Pose2D).length ∧
    List.Chain' (fun a b => pdist a b ≤ 3)
      [⟨0, 0, 0⟩, ⟨2, 0, 0⟩, ⟨4, 0, 0⟩, ⟨6, 0, 0⟩, ⟨8, 0, 0⟩, ⟨10, 0, 0⟩] :=
  ⟨by norm_num, by simp,
    C4_densified_spacing 3 _ _ (by norm_num) (by simp) densify_ex1⟩

/-- Witness for C5 at the worked example. -/
theorem C5_witness :
    2 ≤ ([⟨0, 0, 0⟩, ⟨10, 0, 0⟩] : List Pose2D).length ∧
    ([⟨0, 0, 0⟩, ⟨2, 0, 0⟩, ⟨4, 0, 0⟩, ⟨6, 0, 0⟩, ⟨8, 0, 0⟩, ⟨10, 0, 0⟩] : List Pose2D).head? =
      ([⟨0, 0, 0⟩, ⟨10, 0, 0⟩] : List Pose2D).head? ∧
    ([⟨0, 0, 0⟩, ⟨2, 0, 0⟩, ⟨4, 0, 0⟩, ⟨6, 0, 0⟩, ⟨8, 0, 0⟩, ⟨10, 0, 0⟩] : List Pose2D).getLast? =
      ([⟨0, 0, 0⟩, ⟨10, 0, 0⟩] : List Pose2D).getLast? ∧
    ([⟨0, 0, 0⟩, ⟨10, 0, 0⟩] : List Pose2D).length ≤
      ([⟨0, 0, 0⟩, ⟨2, 0, 0⟩, ⟨4, 0, 0⟩, ⟨6, 0, 0⟩, ⟨8, 0, 0⟩, ⟨10, 0, 0⟩] : List Pose2D).length := by
  refine ⟨by simp, ?_⟩
  have h := C5_endpoints_length 3 _ _ (by simp) densify_ex1
  exact ⟨h.1, h.2.1, h.2.2⟩

/-- Witness for C6: a two-frame path with gap 1 and max_spacing 2 is
returned unchanged. -/
theorem C6_witness :
    interpolatePathPose2D 2 [⟨0, 0, 0⟩, ⟨1, 0, 0⟩] = some [⟨0, 0, 0⟩, ⟨1, 0, 0⟩] :=
  C6_idempotent 2 _ (by simp) (by
    refine List.chain'_pair.2 ?_
    rw [pdist_eq_sqrt]
    norm_num [Real.sqrt_one])

/-- Counterexample to C9 as stated: the densifier passes input frames
through unchanged, so an input heading of 4 radians (outside (-pi, pi])
survives into the output. -/
theorem C9_counterexample :
    ¬ (∀ (m : ℝ) (path out : List Pose2D), 2 ≤ path.length →
        interpolatePathPose2D m path = some out →
        ∀ p ∈ out, -Real.pi < p.theta ∧ p.theta ≤ Real.pi) := by
  intro hclaim
  have h4 : Real.pi < 4 := lt_trans Real.pi_lt_315 (by norm_num)
  have hall := hclaim 1 [⟨0, 0, 4⟩, ⟨0, 0, 4⟩] [⟨0, 0, 4⟩, ⟨0, 0, 4⟩] (by simp) densify_ex2
    ⟨0, 0, 4⟩ (by simp)
  have hle : (4 : ℝ) ≤ Real.pi := hall.2
  linarith

/-- Witness for the amended C9 at the worked example (all input headings 0). -/
theorem C9_witness :
    (∀ p ∈ ([⟨0, 0, 0⟩, ⟨10, 0, 0⟩] : List Pose2D),
      -Real.pi < p.theta ∧ p.theta ≤ Real.pi) ∧
    (∀ p ∈ ([⟨0, 0, 0⟩, ⟨2, 0, 0⟩, ⟨4, 0, 0⟩, ⟨6, 0, 0⟩, ⟨8, 0, 0⟩, ⟨10, 0, 0⟩] : List Pose2D),
      -Real.pi < p.theta ∧ p.theta ≤ Real.pi) := by
  have hπ := Real.pi_pos
  have hin : ∀ p ∈ ([⟨0, 0, 0⟩, ⟨10, 0, 0⟩] : List Pose2D),
      -Real.pi < p.theta ∧ p.theta ≤ Real.pi := by
    intro p hp
    simp only [List.mem_cons, List.not_mem_nil, or_false] at hp
    rcases hp with rfl | rfl <;> exact ⟨by simpa using hπ, by simpa using hπ.le⟩
  exact ⟨hin, C9_headings_normalized 3 _ _ hin densify_ex1⟩

/- Model of OMPLPlannerBase::makePlan and its collaborators. -/

/-- Observable steps of one `makePlan` invocation, in source order:
bounds derivation (lines 160-179), attaching the validity oracle (185),
the goal and start footprint-cost checks (200, 207), the start and goal
bounds-membership checks (237, 252), planner selection inside
`setPlannerType` (`ROS_FATAL` on an unknown kind), `setPlanner` (534),
`solve` (267), `simplifySolution` (295) and the interpolation pass (332). -/
inductive Ev where
  | boundsSetup
  | oracleSetup
  | goalCostCheck
  | startCostCheck
  | startBoundsCheck
  | goalBoundsCheck
  | plannerSelected
  | fatalPlannerError
  | plannerAttached
  | solveInvoked
  | pathSimplified
  | pathDensified
deriving DecidableEq

/-- Inputs of one `makePlan` invocation: planner state, parameters, the
opaque costmap/world model, and the black-box solver outcome. -/
structure Env where
  isInit : Bool
  frameMatch : Bool
  sizeX : ℝ
  sizeY : ℝ
  originX : ℝ
  originY : ℝ
  footprintLen : ℕ
  wmCost : Pose2D → ℝ
  maxFootprintCost : ℤ
  maxDistParam : ℝ
  interpolatePath : Bool
  plannerType : String
  solved : Bool
  rawPath : List Pose2D
  start : Pose2D
  goal : Pose2D

/-- Result of one `makePlan` invocation: the returned bool, the ordered
trace of observable steps, the plan written to the output argument, and
whether `setPlannerType` actually assigned a planner handle. -/
structure MPOut where
  ok : Bool
  trace : List Ev
  plan : List Pose2D
  handleSet : Bool

/-- `OMPLPlannerBase::footprintCost`: -1 when the footprint has fewer than
3 vertices, otherwise the world model's footprint cost. -/
noncomputable def footprintCost (e : Env) (p : Pose2D) : ℝ :=
  if e.footprintLen < 3 then -1 else e.wmCost p

/-- C++ truncation of a `double` to `int` (toward zero), as in
`int sample_costs = footprintCost(...)`. -/
noncomputable def truncToInt (x : ℝ) : ℤ := if x < 0 then ⌈x⌉ else ⌊x⌋

/-- The start/goal endpoint rejection test of `makePlan` (lines 200-212):
the footprint cost truncated to `int`, rejected when negative or strictly
greater than `max_footprint_cost`. -/
noncomputable def endpointRejected (e : Env) (p : Pose2D) : Prop :=
  ((truncToInt (footprintCost e p) : ℝ) < 0) ∨
    truncToInt (footprintCost e p) > e.maxFootprintCost

/-- `OMPLPlannerBase::isStateValid2DGrid`, the validity oracle handed to the
planner: untruncated cost nonnegative and strictly below
`max_footprint_cost`. -/
noncomputable def isStateValid2DGrid (e : Env) (p : Pose2D) : Prop :=
  0 ≤ footprintCost e p ∧ footprintCost e p < (e.maxFootprintCost : ℝ)

/-- Upper x bound set by `makePlan`: `getSizeInMetersX() - getOriginX()`. -/
noncomputable def boundsHighX (e : Env) : ℝ := e.sizeX - e.originX

/-- Lower x bound set by `makePlan`: the upper bound minus the size. -/
noncomputable def boundsLowX (e : Env) : ℝ := boundsHighX e - e.sizeX

/-- Upper y bound set by `makePlan`: `getSizeInMetersY() - getOriginY()`. -/
noncomputable def boundsHighY (e : Env) : ℝ := e.sizeY - e.originY

/-- Lower y bound set by `makePlan`: the upper bound minus the size. -/
noncomputable def boundsLowY (e : Env) : ℝ := boundsHighY e - e.sizeY

/-- Membership of a pose's position in the SE2 manifold bounds (the SO2
component is unbounded; converted headings are already normalized). -/
noncomputable def satisfiesBounds (e : Env) (p : Pose2D) : Prop :=
  boundsLowX e ≤ p.x ∧ p.x ≤ boundsHighX e ∧ boundsLowY e ≤ p.y ∧ p.y ≤ boundsHighY e

/-- The nine planner kinds accepted by `setPlannerType`. -/
def supportedPlanners : List String :=
  ["EST", "KPIECE", "LBKPIECE", "LazyRRT", "pRRT", "RRT", "RRTConnect", "pSBL", "SBL"]

/-- Whether `setPlannerType` assigns `target_planner_ptr` (it stays unset on
an unrecognized kind, yet is passed to `setPlanner` regardless). -/
def plannerFound (e : Env) : Bool := decide (e.plannerType ∈ supportedPlanners)

/-- Events emitted by `setPlannerType`: selection or the `ROS_FATAL` report,
followed unconditionally by `setPlanner`. -/
def selectEvents (e : Env) : List Ev :=
  if plannerFound e then [Ev.plannerSelected, Ev.plannerAttached]
  else [Ev.fatalPlannerError, Ev.plannerAttached]

/-- Trace prefix of a run that reaches `setPlannerType`. -/
def preTrace (e : Env) : List Ev :=
  [Ev.boundsSetup, Ev.oracleSetup, Ev.goalCostCheck, Ev.startCostCheck,
    Ev.startBoundsCheck, Ev.goalBoundsCheck] ++ selectEvents e

/-- `readParameters` clamp: a nonpositive `max_dist_between_pathframes` is
reset to the default 0.10. -/
noncomputable def effectiveMaxDist (e : Env) : ℝ :=
  if e.maxDistParam ≤ 0 then 0.10 else e.maxDistParam

/-- `OMPLPlannerBase::makePlan` as a function of the environment: the linear
control flow with early exits, in source order.  `num_frames_inpath` is the
raw (pre-interpolation) state count, and the final copy loop reads exactly
that many frames from the (possibly densified) pose list — hence the
`List.take e.rawPath.length`. -/
noncomputable def makePlanRun (e : Env) : MPOut :=
  if e.isInit = false then ⟨false, [], [], false⟩
  else if e.frameMatch = false then ⟨false, [], [], false⟩
  else if endpointRejected e e.goal then
    ⟨false, [Ev.boundsSetup, Ev.oracleSetup, Ev.goalCostCheck], [], false⟩
  else if endpointRejected e e.start then
    ⟨false, [Ev.boundsSetup, Ev.oracleSetup, Ev.goalCostCheck, Ev.startCostCheck], [], false⟩
  else if ¬ satisfiesBounds e e.start then
    ⟨false, [Ev.boundsSetup, Ev.oracleSetup, Ev.goalCostCheck, Ev.startCostCheck,
      Ev.startBoundsCheck], [], false⟩
  else if ¬ satisfiesBounds e e.goal then
    ⟨false, [Ev.boundsSetup, Ev.oracleSetup, Ev.goalCostCheck, Ev.startCostCheck,
      Ev.startBoundsCheck, Ev.goalBoundsCheck], [], false⟩
  else if e.solved = false then
    ⟨false, preTrace e ++ [Ev.solveInvoked], [], plannerFound e⟩
  else if e.interpolatePath = false then
    ⟨true, preTrace e ++ [Ev.solveInvoked, Ev.pathSimplified],
      e.rawPath.take e.rawPath.length, plannerFound e⟩
  else
    match interpolatePathPose2D (effectiveMaxDist e) e.rawPath with
    | none => ⟨false, preTrace e ++ [Ev.solveInvoked, Ev.pathSimplified, Ev.pathDensified],
        [], plannerFound e⟩
    | some dens => ⟨true, preTrace e ++ [Ev.solveInvoked, Ev.pathSimplified, Ev.pathDensified],
        dens.take e.rawPath.length, plannerFound e⟩

/- Concrete environments for evaluation. -/

/-- A nominal environment: initialized, matching frames, a 4x4 m costmap with
origin (1,1), a 4-vertex footprint of cost 0 everywhere, default
max_footprint_cost 256, max spacing 3, planner RRT, and a solved two-frame
raw path from (0,0,0) to (10,0,0). -/
noncomputable def baseEnv : Env where
  isInit := true
  frameMatch := true
  sizeX := 4
  sizeY := 4
  originX := 1
  originY := 1
  footprintLen := 4
  wmCost := fun _ => 0
  maxFootprintCost := 256
  maxDistParam := 3
  interpolatePath := true
  plannerType := "RRT"
  solved := true
  rawPath := [⟨0, 0, 0⟩, ⟨10, 0, 0⟩]
  start := ⟨0, 0, 0⟩
  goal := ⟨2, 0, 0⟩

/-- The nominal environment with an unrecognized planner kind and an
unsolved outcome. -/
noncomputable def envBogus : Env := { baseEnv with plannerType := "Bogus", solved := false }

/-- The nominal environment whose world model reports footprint cost 256.5
everywhere (interpolation off). -/
noncomputable def envC7 : Env := { baseEnv with wmCost := fun _ => 256.5, interpolatePath := false }

/-- The nominal environment with an empty footprint. -/
noncomputable def envC8 : Env := { baseEnv with footprintLen := 0 }

lemma truncToInt_zero : truncToInt 0 = 0 := by
  rw [truncToInt, if_neg (by norm_num)]
  simp

lemma footprintCost_base (p : Pose2D) : footprintCost baseEnv p = 0 := by
  rw [footprintCost]
  norm_num [baseEnv]

lemma endpointRejected_base (p : Pose2D) : ¬ endpointRejected baseEnv p := by
  rw [endpointRejected, footprintCost_base, truncToInt_zero]
  norm_num [baseEnv]

lemma satisfiesBounds_base_start : satisfiesBounds baseEnv baseEnv.start := by
  rw [satisfiesBounds, boundsLowX, boundsLowY, boundsHighX, boundsHighY]
  norm_num [baseEnv]

lemma satisfiesBounds_base_goal : satisfiesBounds baseEnv baseEnv.goal := by
  rw [satisfiesBounds, boundsLowX, boundsLowY, boundsHighX, boundsHighY]
  norm_num [baseEnv]

lemma effectiveMaxDist_base : effectiveMaxDist baseEnv = 3 := by
  rw [effectiveMaxDist]
  norm_num [baseEnv]

lemma plannerFound_base : plannerFound baseEnv = true := by
  rw [plannerFound]
  simp [baseEnv, supportedPlanners]

lemma makePlanRun_base :
    makePlanRun baseEnv =
      ⟨true,
        [Ev.boundsSetup, Ev.oracleSetup, Ev.goalCostCheck, Ev.startCostCheck,
         Ev.startBoundsCheck, Ev.goalBoundsCheck, Ev.plannerSelected, Ev.plannerAttached,
         Ev.solveInvoked, Ev.pathSimplified, Ev.pathDensified],
        [⟨0, 0, 0⟩, ⟨2, 0, 0⟩], true⟩ := by
  rw [makePlanRun]
  rw [if_neg (by simp [baseEnv]), if_neg (by simp [baseEnv]),
    if_neg (endpointRejected_base _), if_neg (endpointRejected_base _),
    if_neg (not_not_intro satisfiesBounds_base_start),
    if_neg (not_not_intro satisfiesBounds_base_goal),
    if_neg (by simp [baseEnv]), if_neg (by simp [baseEnv])]
  rw [show baseEnv.rawPath = [⟨0, 0, 0⟩, ⟨10, 0, 0⟩] from rfl, effectiveMaxDist_base,
    densify_ex1]
  simp [preTrace, selectEvents, plannerFound_base]

lemma endpointRejected_envBogus (p : Pose2D) : ¬ endpointRejected envBogus p := by
  have h : footprintCost envBogus p = 0 := by
    rw [footprintCost]
    norm_num [envBogus, baseEnv]
  rw [endpointRejected, h, truncToInt_zero]
  norm_num [envBogus, baseEnv]

lemma satisfiesBounds_envBogus_start : satisfiesBounds envBogus envBogus.start := by
  rw [satisfiesBounds, boundsLowX, boundsLowY, boundsHighX, boundsHighY]
  norm_num [envBogus, baseEnv]

lemma satisfiesBounds_envBogus_goal : satisfiesBounds envBogus envBogus.goal := by
  rw [satisfiesBounds, boundsLowX, boundsLowY, boundsHighX, boundsHighY]
  norm_num [envBogus, baseEnv]

lemma plannerFound_envBogus : plannerFound envBogus = false := by
  rw [plannerFound]
  simp [envBogus, baseEnv, supportedPlanners]

lemma makePlanRun_envBogus :
    makePlanRun envBogus =
      ⟨false,
        [Ev.boundsSetup, Ev.oracleSetup, Ev.goalCostCheck, Ev.startCostCheck,
         Ev.startBoundsCheck, Ev.goalBoundsCheck, Ev.fatalPlannerError, Ev.plannerAttached,
         Ev.solveInvoked], [], false⟩ := by
  rw [makePlanRun]
  rw [if_neg (by simp [envBogus, baseEnv]), if_neg (by simp [envBogus, baseEnv]),
    if_neg (endpointRejected_envBogus _), if_neg (endpointRejected_envBogus _),
    if_neg (not_not_intro satisfiesBounds_envBogus_start),
    if_neg (not_not_intro satisfiesBounds_envBogus_goal),
    if_pos (by simp [envBogus, baseEnv])]
  simp [preTrace, selectEvents, plannerFound_envBogus]

lemma footprintCost_envC7 (p : Pose2D) : footprintCost envC7 p = 256.5 := by
  rw [footprintCost]
  norm_num [envC7, baseEnv]

lemma truncToInt_half : truncToInt (256.5 : ℝ) = 256 := by
  rw [truncToInt, if_neg (by norm_num), Int.floor_eq_iff]
  norm_num

lemma endpointRejected_envC7 (p : Pose2D) : ¬ endpointRejected envC7 p := by
  rw [endpointRejected, footprintCost_envC7, truncToInt_half]
  norm_num [envC7, baseEnv]

lemma satisfiesBounds_envC7_start : satisfiesBounds envC7 envC7.start := by
  rw [satisfiesBounds, boundsLowX, boundsLowY, boundsHighX, boundsHighY]
  norm_num [envC7, baseEnv]

lemma satisfiesBounds_envC7_goal : satisfiesBounds envC7 envC7.goal := by
  rw [satisfiesBounds, boundsLowX, boundsLowY, boundsHighX, boundsHighY]
  norm_num [envC7, baseEnv]

lemma plannerFound_envC7 : plannerFound envC7 = true := by
  rw [plannerFound]
  simp [envC7, baseEnv, supportedPlanners]

lemma makePlanRun_envC7 :
    makePlanRun envC7 =
      ⟨true,
        [Ev.boundsSetup, Ev.oracleSetup, Ev.goalCostCheck, Ev.startCostCheck,
         Ev.startBoundsCheck, Ev.goalBoundsCheck, Ev.plannerSelected, Ev.plannerAttached,
         Ev.solveInvoked, Ev.pathSimplified], [⟨0, 0, 0⟩, ⟨10, 0, 0⟩], true⟩ := by
  rw [makePlanRun]
  rw [if_neg (by simp [envC7, baseEnv]), if_neg (by simp [envC7, baseEnv]),
    if_neg (endpointRejected_envC7 _), if_neg (endpointRejected_envC7 _),
    if_neg (not_not_intro satisfiesBounds_envC7_start),
    if_neg (not_not_intro satisfiesBounds_envC7_goal),
    if_neg (by simp [envC7, baseEnv]), if_pos (by simp [envC7, baseEnv])]
  rw [show envC7.rawPath = [⟨0, 0, 0⟩, ⟨10, 0, 0⟩] from rfl]
  simp [preTrace, selectEvents, plannerFound_envC7]

/-- Claim C1: `makePlan` sets the x bounds to
`[size - origin - size, size - origin] = [-origin, size - origin]` instead of
the environment extents `[origin, origin + size]`.  On a costmap with origin
(1,1) and size (4,4) the code produces x and y bounds [-1, 3], not [1, 5]. -/
theorem C1_bounds_not_extents :
    boundsLowX baseEnv = -1 ∧ boundsHighX baseEnv = 3 ∧
    boundsLowY baseEnv = -1 ∧ boundsHighY baseEnv = 3 ∧
    boundsLowX baseEnv ≠ baseEnv.originX ∧
    boundsHighX baseEnv ≠ baseEnv.originX + baseEnv.sizeX ∧
    boundsLowY baseEnv ≠ baseEnv.originY ∧
    boundsHighY baseEnv ≠ baseEnv.originY + baseEnv.sizeY := by
  norm_num [boundsLowX, boundsHighX, boundsLowY, boundsHighY, baseEnv]

/-- Claim C2: with interpolation enabled and the worked-example raw path,
`makePlan` succeeds, the densified path has 6 frames ending at (10,0,0), but
the returned plan keeps only `num_frames_inpath = 2` frames and ends at
(2,0,0) — the stale pre-interpolation count truncates the densified path. -/
theorem C2_plan_truncated :
    (makePlanRun baseEnv).ok = true ∧
    interpolatePathPose2D (effectiveMaxDist baseEnv) baseEnv.rawPath =
      some [⟨0, 0, 0⟩, ⟨2, 0, 0⟩, ⟨4, 0, 0⟩, ⟨6, 0, 0⟩, ⟨8, 0, 0⟩, ⟨10, 0, 0⟩] ∧
    (makePlanRun baseEnv).plan.length = 2 ∧
    baseEnv.rawPath.getLast? = some ⟨10, 0, 0⟩ ∧
    (makePlanRun baseEnv).plan.getLast? = some ⟨2, 0, 0⟩ ∧
    ¬ (makePlanRun baseEnv).plan.getLast? = some (⟨10, 0, 0⟩ : Pose2D) := by
  rw [makePlanRun_base, effectiveMaxDist_base,
    show baseEnv.rawPath = [⟨0, 0, 0⟩, ⟨10, 0, 0⟩] from rfl, densify_ex1]
  refine ⟨rfl, rfl, rfl, rfl, rfl, ?_⟩
  simp only [List.getLast?_cons_cons, List.getLast?_singleton, Option.some.injEq,
    Pose2D.mk.injEq]
  norm_num

/-- Counterexample to C3 as stated: with planner kind "Bogus" (and an
otherwise nominal request) the bounds and the oracle are set up and both
endpoint checks run before the fatal planner error is reported, and the run
then proceeds: the unset handle is attached and `solve` is invoked. -/
theorem C3_counterexample :
    envBogus.plannerType ∉ supportedPlanners ∧
    (makePlanRun envBogus).trace =
      [Ev.boundsSetup, Ev.oracleSetup, Ev.goalCostCheck, Ev.startCostCheck,
       Ev.startBoundsCheck, Ev.goalBoundsCheck, Ev.fatalPlannerError, Ev.plannerAttached,
       Ev.solveInvoked] ∧
    (makePlanRun envBogus).handleSet = false := by
  refine ⟨?_, ?_, ?_⟩
  · simp [envBogus, baseEnv, supportedPlanners]
  · rw [makePlanRun_envBogus]
  · rw [makePlanRun_envBogus]

/-- Claim C3 (amended): an unrecognized planner kind is reported as a fatal
configuration error, but only at planner selection — after bounds and oracle
construction and the endpoint checks — and planner construction is not
halted: no handle is set, `setPlanner` is still called, and solving
proceeds. -/
theorem C3_fatal_after_bounds (e : Env)
    (hsel : Ev.plannerAttached ∈ (makePlanRun e).trace)
    (hbad : e.plannerType ∉ supportedPlanners) :
    (makePlanRun e).handleSet = false ∧
    ∃ suffix, (makePlanRun e).trace =
      [Ev.boundsSetup, Ev.oracleSetup, Ev.goalCostCheck, Ev.startCostCheck,
       Ev.startBoundsCheck, Ev.goalBoundsCheck, Ev.fatalPlannerError, Ev.plannerAttached,
       Ev.solveInvoked] ++ suffix := by
  have hpf : plannerFound e = false := by
    simpa [plannerFound] using hbad
  rw [makePlanRun] at hsel ⊢
  by_cases h1 : e.isInit = false
  · rw [if_pos h1] at hsel
    exact absurd hsel (by simp)
  rw [if_neg h1] at hsel ⊢
  by_cases h2 : e.frameMatch = false
  · rw [if_pos h2] at hsel
    exact absurd hsel (by simp)
  rw [if_neg h2] at hsel ⊢
  by_cases h3 : endpointRejected e e.goal
  · rw [if_pos h3] at hsel
    exact absurd hsel (by simp)
  rw [if_neg h3] at hsel ⊢
  by_cases h4 : endpointRejected e e.start
  · rw [if_pos h4] at hsel
    exact absurd hsel (by simp)
  rw [if_neg h4] at hsel ⊢
  by_cases h5 : ¬ satisfiesBounds e e.start
  · rw [if_pos h5] at hsel
    exact absurd hsel (by simp)
  rw [if_neg h5] at hsel ⊢
  by_cases h6 : ¬ satisfiesBounds e e.goal
  · rw [if_pos h6] at hsel
    exact absurd hsel (by simp)
  rw [if_neg h6] at hsel ⊢
  by_cases h7 : e.solved = false
  · rw [if_pos h7]
    exact ⟨hpf, [], by simp [preTrace, selectEvents, hpf]⟩
  rw [if_neg h7]
  by_cases h8 : e.interpolatePath = false
  · rw [if_pos h8]
    exact ⟨hpf, [Ev.pathSimplified], by simp [preTrace, selectEvents, hpf]⟩
  rw [if_neg h8]
  cases hI : interpolatePathPose2D (effectiveMaxDist e) e.rawPath with
  | none =>
    exact ⟨hpf, [Ev.pathSimplified, Ev.pathDensified],
      by simp [preTrace, selectEvents, hpf]⟩
  | some dens =>
    exact ⟨hpf, [Ev.pathSimplified, Ev.pathDensified],
      by simp [preTrace, selectEvents, hpf]⟩

/-- Witness for the amended C3 at the concrete "Bogus" environment. -/
theorem C3_witness :
    Ev.plannerAttached ∈ (makePlanRun envBogus).trace ∧
    envBogus.plannerType ∉ supportedPlanners ∧
    ((makePlanRun envBogus).handleSet = false ∧
      ∃ suffix, (makePlanRun envBogus).trace =
        [Ev.boundsSetup, Ev.oracleSetup, Ev.goalCostCheck, Ev.startCostCheck,
         Ev.startBoundsCheck, Ev.goalBoundsCheck, Ev.fatalPlannerError, Ev.plannerAttached,
         Ev.solveInvoked] ++ suffix) := by
  have h1 : Ev.plannerAttached ∈ (makePlanRun envBogus).trace := by
    rw [makePlanRun_envBogus]
    simp
  have h2 : envBogus.plannerType ∉ supportedPlanners := by
    simp [envBogus, baseEnv, supportedPlanners]
  exact ⟨h1, h2, C3_fatal_after_bounds envBogus h1 h2⟩

/-- Counterexample to C7 as stated: with footprint cost 256.5 everywhere and
max_footprint_cost 256, the goal is not Free for the validity oracle
(`isStateValid2DGrid`), yet the endpoint check (which truncates the cost to
`int` and allows equality) accepts it, so the run does not fail before the
planner: it selects a planner, invokes `solve`, and even succeeds. -/
theorem C7_counterexample :
    ¬ isStateValid2DGrid envC7 envC7.goal ∧
    (makePlanRun envC7).ok = true ∧
    Ev.plannerSelected ∈ (makePlanRun envC7).trace ∧
    Ev.solveInvoked ∈ (makePlanRun envC7).trace := by
  refine ⟨?_, ?_, ?_, ?_⟩
  · rw [isStateValid2DGrid, footprintCost_envC7]
    norm_num [envC7, baseEnv]
  · rw [makePlanRun_envC7]
  · rw [makePlanRun_envC7]
    simp
  · rw [makePlanRun_envC7]
    simp

/-- Claim C7 (amended): in every run that reaches endpoint validation, the
goal's footprint cost is checked first (the trace begins with bounds setup,
oracle setup, then the goal cost check, before any start check), and if the
endpoint test — truncated cost negative or greater than max_footprint_cost —
rejects goal or start, the run returns failure before any planner is
selected, attached or invoked. -/
theorem C7_goal_checked_first (e : Env)
    (hinit : e.isInit = true) (hframe : e.frameMatch = true) :
    (∃ post, (makePlanRun e).trace =
      [Ev.boundsSetup, Ev.oracleSetup, Ev.goalCostCheck] ++ post) ∧
    (endpointRejected e e.goal ∨ endpointRejected e e.start →
      (makePlanRun e).ok = false ∧
      Ev.plannerSelected ∉ (makePlanRun e).trace ∧
      Ev.fatalPlannerError ∉ (makePlanRun e).trace ∧
      Ev.plannerAttached ∉ (makePlanRun e).trace ∧
      Ev.solveInvoked ∉ (makePlanRun e).trace) := by
  rw [makePlanRun]
  rw [if_neg (by simp [hinit]), if_neg (by simp [hframe])]
  by_cases h3 : endpointRejected e e.goal
  · rw [if_pos h3]
    exact ⟨⟨[], rfl⟩, fun _ => ⟨rfl, by simp, by simp, by simp, by simp⟩⟩
  rw [if_neg h3]
  by_cases h4 : endpointRejected e e.start
  · rw [if_pos h4]
    exact ⟨⟨[Ev.startCostCheck], rfl⟩, fun _ => ⟨rfl, by simp, by simp, by simp, by simp⟩⟩
  rw [if_neg h4]
  have himp : ¬ (endpointRejected e e.goal ∨ endpointRejected e e.start) := by
    intro hcon
    rcases hcon with hcon | hcon
    · exact h3 hcon
    · exact h4 hcon
  refine ⟨?_, fun hcon => absurd hcon himp⟩
  by_cases h5 : ¬ satisfiesBounds e e.start
  · rw [if_pos h5]
    exact ⟨[Ev.startCostCheck, Ev.startBoundsCheck], rfl⟩
  rw [if_neg h5]
  by_cases h6 : ¬ satisfiesBounds e e.goal
  · rw [if_pos h6]
    exact ⟨[Ev.startCostCheck, Ev.startBoundsCheck, Ev.goalBoundsCheck], rfl⟩
  rw [if_neg h6]
  by_cases h7 : e.solved = false
  · rw [if_pos h7]
    exact ⟨[Ev.startCostCheck, Ev.startBoundsCheck, Ev.goalBoundsCheck] ++
      selectEvents e ++ [Ev.solveInvoked], by simp [preTrace]⟩
  rw [if_neg h7]
  by_cases h8 : e.interpolatePath = false
  · rw [if_pos h8]
    exact ⟨[Ev.startCostCheck, Ev.startBoundsCheck, Ev.goalBoundsCheck] ++
      selectEvents e ++ [Ev.solveInvoked, Ev.pathSimplified], by simp [preTrace]⟩
  rw [if_neg h8]
  cases hI : interpolatePathPose2D (effectiveMaxDist e) e.rawPath with
  | none =>
    exact ⟨[Ev.startCostCheck, Ev.startBoundsCheck, Ev.goalBoundsCheck] ++
      selectEvents e ++ [Ev.solveInvoked, Ev.pathSimplified, Ev.pathDensified],
      by simp [preTrace]⟩
  | some dens =>
    exact ⟨[Ev.startCostCheck, Ev.startBoundsCheck, Ev.goalBoundsCheck] ++
      selectEvents e ++ [Ev.solveInvoked, Ev.pathSimplified, Ev.pathDensified],
      by simp [preTrace]⟩

/-- Witness for the amended C7 at the nominal environment. -/
theorem C7_witness :
    (∃ post, (makePlanRun baseEnv).trace =
      [Ev.boundsSetup, Ev.oracleSetup, Ev.goalCostCheck] ++ post) ∧
    (endpointRejected baseEnv baseEnv.goal ∨ endpointRejected baseEnv baseEnv.start →
      (makePlanRun baseEnv).ok = false ∧
      Ev.plannerSelected ∉ (makePlanRun baseEnv).trace ∧
      Ev.fatalPlannerError ∉ (makePlanRun baseEnv).trace ∧
      Ev.plannerAttached ∉ (makePlanRun baseEnv).trace ∧
      Ev.solveInvoked ∉ (makePlanRun baseEnv).trace) :=
  C7_goal_checked_first baseEnv rfl rfl

/-- Claim C8: with fewer than 3 footprint vertices the oracle's cost query
returns -1 for every pose (Unknown), no pose is valid, and a run that
reaches endpoint validation fails at the goal check, before any planner is
selected, attached or invoked. -/
theorem C8_empty_footprint (e : Env) (hfp : e.footprintLen < 3)
    (hinit : e.isInit = true) (hframe : e.frameMatch = true) :
    (∀ p, footprintCost e p = -1) ∧
    (∀ p, ¬ isStateValid2DGrid e p) ∧
    (makePlanRun e).ok = false ∧
    Ev.plannerSelected ∉ (makePlanRun e).trace ∧
    Ev.plannerAttached ∉ (makePlanRun e).trace ∧
    Ev.solveInvoked ∉ (makePlanRun e).trace := by
  have hcost : ∀ p, footprintCost e p = -1 := fun p => by
    rw [footprintCost, if_pos hfp]
  have hrej : endpointRejected e e.goal := by
    rw [endpointRejected, hcost]
    left
    rw [truncToInt, if_pos (by norm_num)]
    rw [show ((-1 : ℝ)) = ((-1 : ℤ) : ℝ) by norm_num, Int.ceil_intCast]
    norm_num
  rw [makePlanRun, if_neg (by simp [hinit]), if_neg (by simp [hframe]), if_pos hrej]
  refine ⟨hcost, ?_, rfl, by simp, by simp, by simp⟩
  intro p
  rw [isStateValid2DGrid, hcost]
  intro hcon
  have := hcon.1
  norm_num at this

/-- Witness for C8 at the nominal environment with an empty footprint. -/
theorem C8_witness :
    (∀ p, footprintCost envC8 p = -1) ∧
    (∀ p, ¬ isStateValid2DGrid envC8 p) ∧
    (makePlanRun envC8).ok = false ∧
    Ev.plannerSelected ∉ (makePlanRun envC8).trace ∧
    Ev.plannerAttached ∉ (makePlanRun envC8).trace ∧
    Ev.solveInvoked ∉ (makePlanRun envC8).trace :=
  C8_empty_footprint envC8 (by simp [envC8, baseEnv]) rfl rfl

/-- Claim C10: the endpoint acceptance test and the planner's validity
predicate disagree at the threshold.  For any pose whose footprint cost lies
in [max_footprint_cost, max_footprint_cost + 1) (max nonnegative), the
endpoint check — which truncates to `int` and accepts cost ≤ max — passes,
while `isStateValid2DGrid` — which requires untruncated cost < max —
classifies the pose invalid. -/
theorem C10_threshold_mismatch (e : Env) (p : Pose2D)
    (hmax : 0 ≤ e.maxFootprintCost)
    (hlo : (e.maxFootprintCost : ℝ) ≤ footprintCost e p)
    (hhi : footprintCost e p < (e.maxFootprintCost : ℝ) + 1) :
    ¬ endpointRejected e p ∧ ¬ isStateValid2DGrid e p := by
  have h0 : (0 : ℝ) ≤ footprintCost e p := le_trans (by exact_mod_cast hmax) hlo
  have htr : truncToInt (footprintCost e p) = ⌊footprintCost e p⌋ := by
    rw [truncToInt, if_neg (not_lt.2 h0)]
  have hfl_ge : e.maxFootprintCost ≤ ⌊footprintCost e p⌋ := Int.le_floor.2 hlo
  have hfl_le : ⌊footprintCost e p⌋ ≤ e.maxFootprintCost := by
    have : ⌊footprintCost e p⌋ < e.maxFootprintCost + 1 :=
      Int.floor_lt.2 (by push_cast; linarith)
    omega
  constructor
  · rw [endpointRejected, htr]
    push_neg
    constructor
    · have h1 : (0 : ℤ) ≤ ⌊footprintCost e p⌋ := le_trans hmax hfl_ge
      exact_mod_cast h1
    · exact hfl_le
  · rw [isStateValid2DGrid]
    intro hcon
    linarith [hcon.2]

/-- Witness for C10: cost 256.5 with max_footprint_cost 256. -/
theorem C10_witness :
    (0 ≤ envC7.maxFootprintCost) ∧
    ((envC7.maxFootprintCost : ℝ) ≤ footprintCost envC7 ⟨0, 0, 0⟩) ∧
    (footprintCost envC7 ⟨0, 0, 0⟩ < (envC7.maxFootprintCost : ℝ) + 1) ∧
    (¬ endpointRejected envC7 ⟨0, 0, 0⟩ ∧ ¬ isStateValid2DGrid envC7 ⟨0, 0, 0⟩) := by
  have h1 : (0 : ℤ) ≤ envC7.maxFootprintCost := by norm_num [envC7, baseEnv]
  have h2 : (envC7.maxFootprintCost : ℝ) ≤ footprintCost envC7 ⟨0, 0, 0⟩ := by
    rw [footprintCost_envC7]
    norm_num [envC7, baseEnv]
  have h3 : footprintCost envC7 ⟨0, 0, 0⟩ < (envC7.maxFootprintCost : ℝ) + 1 := by
    rw [footprintCost_envC7]
    norm_num [envC7, baseEnv]
  exact ⟨h1, h2, h3, C10_threshold_mismatch envC7 ⟨0, 0, 0⟩ h1 h2 h3⟩
